import Mathlib

/-!
Verification of the financial-news sentiment aggregation service.

This file gives a shallow embedding of the core of the repository
(`backend/app/sentiment.py`, `backend/app/news_api.py`,
`backend/app/excel_news.py`, `backend/app/news_scraper.py`, and the
summary block of `backend/app/api.py`) and proves the spec's testable
properties about it.

Modelling conventions:
- Python strings are Lean `String`s; `str.strip()` is `pyStrip`,
  `str.lower()` is `pyLower`, `a in b` (substring test) is `strIn`.
- Machine floats are modelled as `ℚ` (all arithmetic in the source is
  elementary: +, *, /, min).
- Timestamps are seconds since the epoch as `Int`; `datetime.now()` is an
  explicit `now` input; `strftime` is an abstract formatting input
  `fmt : Int → String` (its output is only ever carried around, never
  inspected, by the code under verification).
- `random.random()` draws are explicit inputs `j : ℚ` with `0 ≤ j < 1`.
- Exceptions raised by external collaborators (network stack, OS, logging)
  are modelled by explicit `Option String` inputs: `some e` means an
  exception with message `e` was raised at that point.
- Python integers are `Int`; `//` is `Int.fdiv` (floor division), and
  list slicing `xs[:k]` is `pySlice`.
-/

/-- Python `xs[:k]` for an integer `k`: a prefix for `k ≥ 0`, and dropping
`|k|` elements from the end for `k < 0`. -/
def pySlice {α : Type} (l : List α) (k : Int) : List α :=
  if 0 ≤ k then l.take k.toNat else l.take (l.length - (-k).toNat)

/-- Python `str.lower()` (the repository only lower-cases ASCII tickers,
keywords and titles), written character-wise so that it is
kernel-computable. -/
def pyLower (s : String) : String := ⟨s.data.map Char.toLower⟩

/-- Python `str.strip()`: drop leading and trailing whitespace. -/
def pyStrip (s : String) : String :=
  ⟨((s.data.dropWhile Char.isWhitespace).reverse.dropWhile Char.isWhitespace).reverse⟩

/-- Normalized title used for dedup everywhere in the source:
`title.strip().lower()`. -/
def normTitle (s : String) : String := pyLower (pyStrip s)

/-- Python substring containment `a in b` (on already-lowercased strings in
the source): some position of `b` starts an occurrence of `a`. -/
def strIn (a b : String) : Bool :=
  (List.range (b.length + 1)).any (fun i => a.data.isPrefixOf (b.data.drop i))

/-- Number of positions of `s` at which `pat` occurs as a substring.  This
definition follows the SPEC's words for claim C6 ("each keyword counting
once per occurrence"); the source itself only tests membership. -/
def occCount (pat s : String) : Nat :=
  (List.range (s.length + 1)).countP (fun i => pat.data.isPrefixOf (s.data.drop i))

/-! ## sentiment.py -/

inductive Sentiment where
  | positive
  | negative
  | neutral
deriving DecidableEq, Repr

/-- The keyword configuration of the rule-based model
(`SentimentModel._load_config`). -/
structure ModelConfig where
  positive_keywords : List String
  negative_keywords : List String
deriving DecidableEq, Repr

/-- `default_config` from `SentimentModel._load_config` (the keyword lists;
the `version`/`created_at` metadata fields play no role in behavior). -/
def default_model_config : ModelConfig where
  positive_keywords :=
    ["surge", "record", "exceeding", "strong", "grow", "growth", "breakthrough",
     "positive", "gain", "gains", "profit", "profitable", "success", "successful",
     "innovation", "innovative", "opportunity", "opportunities", "upbeat", "optimistic"]
  negative_keywords :=
    ["downgrade", "concerns", "vulnerabilities", "issues", "challenges", "mount",
     "labor", "divided", "volatility", "fears", "recession", "loss", "losses",
     "debt", "decline", "fell", "fall", "drop", "bearish", "pessimistic", "bankruptcy",
     "lawsuit", "investigation", "regulatory", "scrutiny", "inflation", "shortage"]

/-- `positive_count` of `SentimentModel._analyze_rule_based`:
`sum(1 for word in positive_keywords if word.lower() in text.lower())`. -/
def positiveCount (cfg : ModelConfig) (text : String) : Nat :=
  cfg.positive_keywords.countP (fun w => strIn (pyLower w) (pyLower text))

/-- `negative_count` of `SentimentModel._analyze_rule_based`. -/
def negativeCount (cfg : ModelConfig) (text : String) : Nat :=
  cfg.negative_keywords.countP (fun w => strIn (pyLower w) (pyLower text))

/-- The claim-side per-occurrence total for C6: the sum over configured
positive keywords of the number of substring occurrences in the text. -/
def specOccPositive (cfg : ModelConfig) (text : String) : Nat :=
  (cfg.positive_keywords.map (fun w => occCount (pyLower w) (pyLower text))).sum

/-- Result dictionary of `SentimentModel.analyze` / `_analyze_rule_based`.
`details = some (p, n)` models the `details` sub-dict of the rule-based
result (absent, `none`, in the error fallback); `error` models the
`error` key (present only in the fallback).  The `model_version` and
`latency_ms` metadata keys carry no verified behavior (real time) and are
omitted. -/
structure AnalyzeResult where
  sentiment : Sentiment
  score : ℚ
  error : Option String
  details : Option (Nat × Nat)
deriving DecidableEq, Repr

/-- `SentimentModel._analyze_rule_based`, with the `random.random()` draw
passed in as `j`. -/
def analyzeRuleBased (cfg : ModelConfig) (text : String) (j : ℚ) : AnalyzeResult :=
  let p := positiveCount cfg text
  let n := negativeCount cfg text
  if n < p then
    { sentiment := .positive
      score := min (7/10 + (1/10) * ((p : ℚ) - (n : ℚ))) (95/100) + j * (5/100)
      error := none
      details := some (p, n) }
  else if p < n then
    { sentiment := .negative
      score := min (7/10 + (1/10) * ((n : ℚ) - (p : ℚ))) (95/100) + j * (5/100)
      error := none
      details := some (p, n) }
  else
    { sentiment := .neutral
      score := 1/2 + j * (1/10)
      error := none
      details := some (p, n) }

/-- The mutable fields of the `SentimentModel` singleton that affect
verified behavior (the latency sum and last-flush clock are real-time
metrics outside the embedding). -/
structure ModelState where
  max_length : Nat
  config : ModelConfig
  request_count : Nat
  error_count : Nat
deriving Repr

/-- `SentimentModel.analyze`.  `exn = some e` models an exception being
raised inside the `try` block (the rule-based scorer itself is pure, so in
the source such an exception can only come from a collaborator); the
`except` branch returns the neutral fallback and bumps `error_count`. -/
def analyze (st : ModelState) (text : String) (j : ℚ) (exn : Option String) :
    AnalyzeResult × ModelState :=
  let st1 : ModelState := { st with request_count := st.request_count + 1 }
  let t := if st1.max_length < text.length then text.take st1.max_length else text
  match exn with
  | some e =>
      ({ sentiment := .neutral, score := 1/2, error := some e, details := none },
       { st1 with error_count := st1.error_count + 1 })
  | none => (analyzeRuleBased st1.config t j, st1)

/-! ## news_api.py -/

/-- One article object from a NewsAPI response.  `dateFmt` models
`strptime(publishedAt, "%Y-%m-%dT%H:%M:%SZ").strftime("%Y-%m-%d %H:%M:%S")`:
`some d` is the reformatted date, `none` means the parse raised
`ValueError`/`TypeError` (the article is then skipped). -/
structure Article where
  title : String
  sourceName : String
  url : String
  dateFmt : Option String
deriving DecidableEq, Repr

/-- One HTTP response in the paging loop of `get_news_from_api`:
`requests.get` status, `data['articles']`, `data.get('totalResults', 0)`. -/
structure PageResponse where
  status : Nat
  articles : List Article
  totalResults : Int
deriving DecidableEq, Repr

/-- A normalized headline record as the dicts flowing through
`news_scraper.get_financial_news` before scoring: the five keys the
pipeline reads (`item.get(...)`).  Excel rows may carry extra columns, but
the pipeline never reads them, so they are not modelled. -/
structure Item where
  title : String
  publisher : String
  link : String
  published_date : String
  ticker : String
deriving DecidableEq, Repr

/-- The `while len(all_articles) < max_results` paging loop of
`get_news_from_api`.  `pages` is the stream of successive responses to
`page = 1, 2, ...`; exhausting it while the loop still wants a page models
`requests.get` raising (handled by the function's own `except`, giving
`none`). In the source a 429 status and any other non-200 status take two
separate `break`s; both stop the loop keeping `all_articles`. -/
def pageLoop (pageSize maxResults : Int) : List PageResponse → List Article →
    Option (List Article)
  | [], acc => if (acc.length : Int) < maxResults then none else some acc
  | r :: rest, acc =>
    if (acc.length : Int) < maxResults then
      if r.status = 429 then some acc
      else if r.status ≠ 200 then some acc
      else
        let acc2 := acc ++ r.articles
        if (r.articles.length : Int) < pageSize then some acc2
        else if r.totalResults ≤ (acc2.length : Int) then some acc2
        else pageLoop pageSize maxResults rest acc2
    else some acc

/-- The formatting loop of `get_news_from_api` (lines 123-160): skip
articles with an empty title, skip normalized-title duplicates, record the
normalized title in `seen_titles` *before* attempting the date parse, and
skip articles whose date fails to parse. -/
def formatArticles (ticker : String) (seen : List String) :
    List Article → List Item
  | [] => []
  | a :: rest =>
    if a.title = "" then formatArticles ticker seen rest
    else
      let nt := normTitle a.title
      if nt ∈ seen then formatArticles ticker seen rest
      else
        match a.dateFmt with
        | none => formatArticles ticker (nt :: seen) rest
        | some d =>
            { title := a.title, publisher := a.sourceName, link := a.url,
              published_date := d, ticker := ticker } :: formatArticles ticker (nt :: seen) rest

/-- `news_api.get_news_from_api`.  The `days` argument only shapes the
`from`/`to` request parameters (capped at 30), which are part of the
opaque HTTP exchange already abstracted by `pages`; it does not otherwise
affect the result.  `page_size = min(100, max_results)`; the collected
articles are sliced to `max_results` before formatting.  A network
exception anywhere (modelled by `pageLoop = none`) is caught and yields
`[]`. -/
def get_news_from_api (ticker : String) (maxResults : Int)
    (pages : List PageResponse) : List Item :=
  match pageLoop (min 100 maxResults) maxResults pages [] with
  | none => []
  | some arts => formatArticles ticker [] (pySlice arts maxResults)

/-! ## excel_news.py -/

/-- One row of `demo_financial_news.xlsx` as produced by
`df.to_dict('records')`.  `date` is `pd.to_datetime(published_date)` as an
epoch timestamp (the parse that the filter compares against the cutoff);
`published_date` is the raw column value carried through to the output. -/
structure ExcelRow where
  ticker : String
  title : String
  publisher : String
  link : String
  published_date : String
  date : Int
deriving DecidableEq, Repr

/-- `excel_news.get_news_from_excel`.  `excelOk = false` models the file
being absent or any read error (both caught, returning `[]`).  Rows match
when their ticker equals the requested one or the `GENERAL` wildcard and
their date is at or after `now - days` days. -/
def get_news_from_excel (ticker : String) (days : Int) (now : Int)
    (excelOk : Bool) (rows : List ExcelRow) : List Item :=
  if excelOk then
    (rows.filter (fun r =>
        (r.ticker = ticker ∨ r.ticker = "GENERAL") ∧ now - days * 86400 ≤ r.date)).map
      (fun r => { title := r.title, publisher := r.publisher, link := r.link,
                  published_date := r.published_date, ticker := r.ticker })
  else []

/-! ## news_scraper.py : demo fallback -/

/-- One hardcoded demo entry of `get_demo_news`: title/publisher/link plus
the news item's age in seconds (`datetime.now() - timedelta(...)`). -/
structure DemoEntry where
  title : String
  publisher : String
  link : String
  age : Int
deriving DecidableEq, Repr

/-- `common_news` of `get_demo_news`: ages 1-4 days. -/
def commonNews : List DemoEntry :=
  [ { title := "Markets reach record highs as tech stocks surge",
      publisher := "Financial Times",
      link := "https://example.com/markets-record-high", age := 86400 },
    { title := "Federal Reserve announces plans to maintain interest rates",
      publisher := "Wall Street Journal",
      link := "https://example.com/fed-rates", age := 172800 },
    { title := "Global recession fears grow as manufacturing slows",
      publisher := "Reuters",
      link := "https://example.com/recession-fears", age := 259200 },
    { title := "Inflation data shows signs of moderating, analysts say",
      publisher := "Bloomberg",
      link := "https://example.com/inflation-data", age := 345600 } ]

/-- `ticker_news` / `default_ticker_news` of `get_demo_news`: the
ticker-specific entries for the five known tickers, else the default
entries.  Ages are `days*86400 + hours*3600`. -/
def tickerNews (ticker : String) : List DemoEntry :=
  if ticker = "AAPL" then
    [ { title := ticker ++ " reports record quarterly earnings, exceeding expectations",
        publisher := "CNBC",
        link := "https://example.com/" ++ pyLower ticker ++ "-earnings", age := 100800 },
      { title := "New " ++ ticker ++ " product line launches to strong demand",
        publisher := "TechCrunch",
        link := "https://example.com/" ++ pyLower ticker ++ "-product-launch", age := 194400 },
      { title := "Analyst downgrades " ++ ticker ++ " citing supply chain concerns",
        publisher := "Seeking Alpha",
        link := "https://example.com/" ++ pyLower ticker ++ "-downgrade", age := 288000 } ]
  else if ticker = "MSFT" then
    [ { title := ticker ++ " cloud services grow 40% year-over-year",
        publisher := "CNBC",
        link := "https://example.com/" ++ pyLower ticker ++ "-cloud-growth", age := 97200 },
      { title := ticker ++ " announces new AI partnerships with industry leaders",
        publisher := "TechCrunch",
        link := "https://example.com/" ++ pyLower ticker ++ "-ai-partnerships", age := 190800 },
      { title := "Security vulnerabilities discovered in " ++ ticker ++ " products",
        publisher := "ZDNet",
        link := "https://example.com/" ++ pyLower ticker ++ "-security-issues", age := 284400 } ]
  else if ticker = "GOOGL" then
    [ { title := ticker ++ " ad revenue exceeds projections in quarterly report",
        publisher := "CNBC",
        link := "https://example.com/" ++ pyLower ticker ++ "-ad-revenue", age := 93600 },
      { title := "Regulatory challenges mount for " ++ ticker ++ " in European markets",
        publisher := "Financial Times",
        link := "https://example.com/" ++ pyLower ticker ++ "-eu-regulation", age := 187200 },
      { title := ticker ++ " unveils new search algorithm with enhanced AI capabilities",
        publisher := "The Verge",
        link := "https://example.com/" ++ pyLower ticker ++ "-search-ai", age := 280800 } ]
  else if ticker = "AMZN" then
    [ { title := ticker ++ " e-commerce sales surge during holiday season",
        publisher := "Reuters",
        link := "https://example.com/" ++ pyLower ticker ++ "-holiday-sales", age := 90000 },
      { title := ticker ++ " expands logistics network with new fulfillment centers",
        publisher := "Business Insider",
        link := "https://example.com/" ++ pyLower ticker ++ "-logistics-expansion", age := 183600 },
      { title := "Labor union pushes for worker rights at " ++ ticker ++ " warehouses",
        publisher := "Washington Post",
        link := "https://example.com/" ++ pyLower ticker ++ "-labor-issues", age := 277200 } ]
  else if ticker = "TSLA" then
    [ { title := ticker ++ " production numbers hit new record in latest quarter",
        publisher := "Electrek",
        link := "https://example.com/" ++ pyLower ticker ++ "-production-record", age := 90000 },
      { title := ticker ++ " CEO announces new battery technology breakthrough",
        publisher := "CleanTechnica",
        link := "https://example.com/" ++ pyLower ticker ++ "-battery-tech", age := 180000 },
      { title := "Analysts divided on " ++ ticker ++ " stock valuation after recent volatility",
        publisher := "Barron's",
        link := "https://example.com/" ++ pyLower ticker ++ "-valuation-debate", age := 270000 } ]
  else
    [ { title := ticker ++ " shares move on market trends",
        publisher := "Market Watch",
        link := "https://example.com/" ++ pyLower ticker ++ "-shares", age := 93600 },
      { title := "Analysts issue new price targets for " ++ ticker,
        publisher := "Seeking Alpha",
        link := "https://example.com/" ++ pyLower ticker ++ "-price-targets", age := 190800 },
      { title := ticker ++ " announces quarterly dividend",
        publisher := "Investor's Business Daily",
        link := "https://example.com/" ++ pyLower ticker ++ "-dividend", age := 280800 } ]

/-- `news_scraper.get_demo_news`: common plus ticker-specific entries,
filtered by `publish_date < cutoff_date` (skip), with the `ticker` field
attached.  The `strftime`/`strptime` round-trip of the source is exact at
second precision, so the comparison is done directly on timestamps;
`fmt` renders the stored `published_date` string. -/
def get_demo_news (ticker : String) (days : Int) (now : Int)
    (fmt : Int → String) : List Item :=
  (commonNews ++ tickerNews ticker).filterMap (fun e =>
    if now - e.age < now - days * 86400 then none
    else some { title := e.title, publisher := e.publisher, link := e.link,
                published_date := fmt (now - e.age), ticker := ticker })

/-! ## news_scraper.py : aggregation pipeline -/

/-- Merge loop used twice in `get_financial_news` (lines 67-72 and 82-87):
walk the extra items, appending those whose normalized title is non-empty
(`if title`) and not in `existing_titles`, updating the set as it goes. -/
def mergeNew (existing : List String) : List Item → List Item
  | [] => []
  | i :: rest =>
    let t := normTitle i.title
    if t ≠ "" ∧ t ∉ existing then i :: mergeNew (t :: existing) rest
    else mergeNew existing rest

/-- `existing_titles`: the set of normalized titles of the items collected
so far. -/
def existingTitles (l : List Item) : List String := l.map (fun i => normTitle i.title)

/-- Merge `extra` into `base` skipping normalized-title duplicates, as the
source does by appending to `news_items`. -/
def mergeDedup (base extra : List Item) : List Item :=
  base ++ mergeNew (existingTitles base) extra

/-- All inputs of one `get_financial_news` run that stand for external
state: the clock, the date formatter, the NewsAPI key probe and page
responses, the Excel file, the scorer's `random.random()` stream and
injected scorer exceptions (indexed by the singleton's running
`request_count`), and the scorer singleton's state at entry. -/
structure Env where
  now : Int
  fmt : Int → String
  apiValid : Bool
  pages : List PageResponse
  excelOk : Bool
  excelRows : List ExcelRow
  jit : Nat → ℚ
  scoreFail : Nat → Option String
  st0 : ModelState

/-- Step 2 of the pipeline: `news_items` after the primary source
(`get_news_from_api` when `is_api_key_valid()`, else `[]`). -/
def primaryItems (ticker : String) (maxResults : Int) (env : Env) : List Item :=
  if env.apiValid then get_news_from_api ticker maxResults env.pages else []

/-- The supplement guard of line 58:
`days > 30 or len(news_items) < min(30, max_results // 2)`. -/
def excelCond (days : Int) (primaryLen : Nat) (maxResults : Int) : Bool :=
  30 < days ∨ (primaryLen : Int) < min 30 (Int.fdiv maxResults 2)

/-- `news_items` after the Excel supplement step (lines 55-72). -/
def newsAfterExcel (ticker : String) (days maxResults : Int) (env : Env) : List Item :=
  let primary := primaryItems ticker maxResults env
  if excelCond days primary.length maxResults then
    mergeDedup primary (get_news_from_excel ticker days env.now env.excelOk env.excelRows)
  else primary

/-- `news_items` after the hardcoded-demo last resort (lines 74-87):
`if not news_items or len(news_items) < 5`. -/
def newsAfterDemo (ticker : String) (days maxResults : Int) (env : Env) : List Item :=
  let ne := newsAfterExcel ticker days maxResults env
  if ne.isEmpty ∨ ne.length < 5 then
    mergeDedup ne (get_demo_news ticker days env.now env.fmt)
  else ne

/-- The final record assembled per surviving item (lines 111-119). -/
structure NewsItem where
  title : String
  publisher : String
  link : String
  published_date : String
  ticker : String
  sentiment : Sentiment
  score : ℚ
deriving DecidableEq, Repr

/-- The scoring loop (lines 94-121): drop empty titles silently, call
`analyze_sentiment(title)` on the singleton (threading its state), and
assemble the seven-field output record with the caller's ticker. -/
def processItems (ticker : String) (env : Env) :
    List Item → ModelState → List NewsItem × ModelState
  | [], st => ([], st)
  | i :: rest, st =>
    if i.title = "" then processItems ticker env rest st
    else
      let rs := analyze st i.title (env.jit st.request_count) (env.scoreFail st.request_count)
      let tail := processItems ticker env rest rs.2
      ({ title := i.title, publisher := i.publisher, link := i.link,
         published_date := i.published_date, ticker := ticker,
         sentiment := rs.1.sentiment, score := rs.1.score } :: tail.1, tail.2)

/-- The body of `get_financial_news`'s `try` block: coerce `days ≥ 1`, run
the three sources with merge/dedup, truncate to `max_results`, score. -/
def get_financial_news_core (ticker : String) (days0 maxResults : Int)
    (env : Env) : List NewsItem :=
  let days := max 1 days0
  let nd := newsAfterDemo ticker days maxResults env
  let truncated := if (nd.length : Int) > maxResults then pySlice nd maxResults else nd
  (processItems ticker env truncated env.st0).1

/-- `news_scraper.get_financial_news`.  `exn = some e` models an
unexpected exception raised anywhere inside the `try` block (lines
39-124) by a collaborator (e.g. the logger); the `except` at line 126
returns `[]` instead of propagating it. -/
def get_financial_news (ticker : String) (days maxResults : Int) (env : Env)
    (exn : Option String) : List NewsItem :=
  match exn with
  | some _ => []
  | none => get_financial_news_core ticker days maxResults env

/-! ## api.py : per-ticker summary block -/

/-- Sentiment polarity mapping `sentiment_values` of
`get_sentiment_summary_endpoint`. -/
def sentimentValue : Sentiment → ℚ
  | .positive => 1
  | .neutral => 0
  | .negative => -1

/-- A scored record as consumed by the summary block: only the
`sentiment` and `score` keys are read. -/
structure ScoredItem where
  sentiment : Sentiment
  score : ℚ
deriving DecidableEq, Repr

/-- The per-ticker summary dict built by `get_sentiment_summary_endpoint`
(lines 60-100).  `weighted_avg_score` is an `Option` because the
empty-news branch (lines 64-72) builds a dict *without* that key, while
the non-empty branch (lines 93-100) always includes it. -/
structure TickerSummary where
  total_news : Nat
  positive : Nat
  negative : Nat
  neutral : Nat
  avg_sentiment_score : ℚ
  weighted_avg_score : Option ℚ
deriving DecidableEq, Repr

/-- The summary computation of `get_sentiment_summary_endpoint` for one
ticker's scored news list. -/
def summarize (news : List ScoredItem) : TickerSummary :=
  if news.isEmpty then
    { total_news := 0, positive := 0, negative := 0, neutral := 0,
      avg_sentiment_score := 0, weighted_avg_score := none }
  else
    let positive := news.countP (fun i => i.sentiment = .positive)
    let negative := news.countP (fun i => i.sentiment = .negative)
    let neutral := news.countP (fun i => i.sentiment = .neutral)
    let weighted_sum := (news.map (fun i => sentimentValue i.sentiment * i.score)).sum
    let total_weight := (news.map (fun i => i.score)).sum
    let weighted_avg := if 0 < total_weight then weighted_sum / total_weight else 0
    let avg := (news.map (fun i => sentimentValue i.sentiment)).sum / (news.length : ℚ)
    { total_news := news.length, positive := positive, negative := negative,
      neutral := neutral, avg_sentiment_score := avg,
      weighted_avg_score := some weighted_avg }

/-! ## Helper lemmas -/

/-- Substring membership holds exactly when the occurrence count is
positive. -/
theorem strIn_iff_occCount_pos (a b : String) :
    strIn a b = true ↔ 0 < occCount a b := by
  simp [strIn, occCount, List.any_eq_true, List.countP_pos_iff]

theorem strIn_eq_decide_occCount (a b : String) :
    strIn a b = decide (0 < occCount a b) := by
  rcases h : strIn a b with _ | _
  · have hn : ¬ 0 < occCount a b := fun hp =>
      by simpa [h] using (strIn_iff_occCount_pos a b).mpr hp
    simp [hn]
  · have := (strIn_iff_occCount_pos a b).mp h
    simp [this]

theorem countP_congr_eq {α : Type} (p q : α → Bool) (l : List α)
    (h : ∀ a ∈ l, p a = q a) : l.countP p = l.countP q := by
  induction l with
  | nil => rfl
  | cons x xs ih =>
      rw [List.countP_cons, List.countP_cons, h x (by simp),
        ih (fun a ha => h a (by simp [ha]))]

/-! ## Claim C3 : summarize on empty input -/

/-- Claim C3 as stated is false: on the empty list the summary dict of
`get_sentiment_summary_endpoint` omits the `weighted_avg_score` key
entirely (lines 64-72 build only five keys), so it does not contain
`weighted_avg_score = 0`. -/
theorem summarize_empty_no_weighted_key :
    (summarize []).weighted_avg_score ≠ some 0 := by
  simp [summarize]

/-- Claim C3, amended: `summarize` applied to the empty sequence returns,
without error, a summary with `total_news = 0`, `positive = 0`,
`negative = 0`, `neutral = 0`, `avg_sentiment_score = 0`, and no
`weighted_avg_score` field (the key is absent from the empty branch). -/
theorem summarize_empty :
    summarize [] =
      { total_news := 0, positive := 0, negative := 0, neutral := 0,
        avg_sentiment_score := 0, weighted_avg_score := none } := rfl

/-! ## Claim C5 : top-level exception handling of the pipeline -/

/-- Claim C5: `get_financial_news` never propagates an exception: whenever
an exception is raised anywhere inside the `try` block of the pipeline
(any `some e`), the function returns the empty list, and otherwise it
returns the result of the try-block body. -/
theorem get_financial_news_never_raises (ticker : String) (days maxResults : Int)
    (env : Env) (e : String) :
    get_financial_news ticker days maxResults env (some e) = [] ∧
    get_financial_news ticker days maxResults env none =
      get_financial_news_core ticker days maxResults env :=
  ⟨rfl, rfl⟩

/-! ## Claim C6 : keyword counting in the rule-based scorer -/

/-- Claim C6 as stated is false: the source counts each configured keyword
at most once, by a membership test, while the claim demands one count per
occurrence.  On the text `"surge surge"` (two occurrences of the positive
keyword `surge` and none of any other keyword) the code computes a
positive count of 1, not the claimed occurrence total of 2. -/
theorem positiveCount_not_per_occurrence :
    positiveCount default_model_config "surge surge" = 1 ∧
    specOccPositive default_model_config "surge surge" = 2 ∧
    positiveCount default_model_config "surge surge" ≠
      specOccPositive default_model_config "surge surge" := by
  refine ⟨by decide, by decide, by decide⟩

/-- Claim C6, amended: the positive (respectively negative) count computed
by the rule-based scorer equals the number of configured positive
(respectively negative) keywords that occur case-insensitively as a
substring of the text at least once — each keyword contributing at most 1
regardless of how many occurrences it has. -/
theorem keywordCount_counts_keywords_once (cfg : ModelConfig) (text : String) :
    positiveCount cfg text =
      cfg.positive_keywords.countP (fun w => decide (0 < occCount (pyLower w) (pyLower text))) ∧
    negativeCount cfg text =
      cfg.negative_keywords.countP (fun w => decide (0 < occCount (pyLower w) (pyLower text))) := by
  constructor
  · exact countP_congr_eq _ _ _ (fun w _ => strIn_eq_decide_occCount (pyLower w) (pyLower text))
  · exact countP_congr_eq _ _ _ (fun w _ => strIn_eq_decide_occCount (pyLower w) (pyLower text))


/-! ## Claim C4 : analyze never raises, error fallback -/

theorem string_length_take (s : String) (n : Nat) :
    (s.take n).length = min n s.length := by
  rw [String.take_eq]
  show (s.data.take n).length = min n s.data.length
  exact List.length_take n s.data

/-- Branch equation: strictly more positive keyword hits. -/
theorem analyzeRuleBased_pos (cfg : ModelConfig) (text : String) (j : ℚ)
    (h : negativeCount cfg text < positiveCount cfg text) :
    analyzeRuleBased cfg text j =
      { sentiment := .positive,
        score := min (7/10 + (1/10) * ((positiveCount cfg text : ℚ) - (negativeCount cfg text : ℚ)))
          (95/100) + j * (5/100),
        error := none,
        details := some (positiveCount cfg text, negativeCount cfg text) } := by
  simp only [analyzeRuleBased, if_pos h]

/-- Branch equation: strictly more negative keyword hits. -/
theorem analyzeRuleBased_neg (cfg : ModelConfig) (text : String) (j : ℚ)
    (h : positiveCount cfg text < negativeCount cfg text) :
    analyzeRuleBased cfg text j =
      { sentiment := .negative,
        score := min (7/10 + (1/10) * ((negativeCount cfg text : ℚ) - (positiveCount cfg text : ℚ)))
          (95/100) + j * (5/100),
        error := none,
        details := some (positiveCount cfg text, negativeCount cfg text) } := by
  simp only [analyzeRuleBased, if_neg (Nat.not_lt.mpr (le_of_lt h)), if_pos h]

/-- Branch equation: tied keyword hits. -/
theorem analyzeRuleBased_neu (cfg : ModelConfig) (text : String) (j : ℚ)
    (h : negativeCount cfg text = positiveCount cfg text) :
    analyzeRuleBased cfg text j =
      { sentiment := .neutral, score := 1/2 + j * (1/10), error := none,
        details := some (positiveCount cfg text, negativeCount cfg text) } := by
  simp only [analyzeRuleBased, h, lt_irrefl, if_false]

theorem analyzeRuleBased_error_none (cfg : ModelConfig) (text : String) (j : ℚ) :
    (analyzeRuleBased cfg text j).error = none := by
  rcases Nat.lt_trichotomy (negativeCount cfg text) (positiveCount cfg text) with h | h | h
  · rw [analyzeRuleBased_pos cfg text j h]
  · rw [analyzeRuleBased_neu cfg text j h]
  · rw [analyzeRuleBased_neg cfg text j h]

/-- Claim C4: for every input text — the empty string and overlong strings
included, the latter analyzed after truncation to `max_length` rather than
rejected — `analyze` returns a result (it is a total function of its
inputs); when internal scoring fails (`some e`) it returns
`sentiment = neutral`, `score = 0.5` and the error description, and
increments the scorer's `error_count` by exactly one, while a successful
run carries no error and leaves `error_count` unchanged. -/
theorem analyze_total_and_error_fallback (st : ModelState) (text : String) (j : ℚ) :
    (∀ e, (analyze st text j (some e)).1 =
        { sentiment := .neutral, score := 1/2, error := some e, details := none } ∧
      (analyze st text j (some e)).2.error_count = st.error_count + 1) ∧
    ((analyze st text j none).2.error_count = st.error_count) ∧
    ((analyze st text j none).1.error = none) ∧
    (st.max_length < text.length →
      ∀ exn, analyze st text j exn = analyze st (text.take st.max_length) j exn) := by
  refine ⟨fun e => ⟨rfl, rfl⟩, rfl, ?_, ?_⟩
  · show (analyzeRuleBased st.config _ j).error = none
    exact analyzeRuleBased_error_none _ _ _
  · intro h exn
    have hlen : (text.take st.max_length).length = st.max_length := by
      rw [string_length_take]
      exact Nat.min_eq_left (le_of_lt h)
    simp only [analyze, if_pos h, hlen, lt_irrefl, if_false]

/-- A concrete scorer state with `max_length = 1`, used to witness the
truncation behavior of claim C4. -/
def stW : ModelState :=
  { max_length := 1, config := default_model_config, request_count := 0, error_count := 0 }

theorem analyze_total_and_error_fallback_witness :
    stW.max_length < ("ab" : String).length ∧
    analyze stW "ab" 0 none = analyze stW (("ab" : String).take stW.max_length) 0 none :=
  ⟨by decide, (analyze_total_and_error_fallback stW "ab" 0).2.2.2 (by decide) none⟩

/-! ## Claim C8 : score range and branch formulas -/

/-- The conclusion of claim C8 for one configuration, text and jitter draw
`j`: the rule-based score is in `[0,1]`; in the positive and negative
branches it equals the capped base plus a jitter of at most `0.05`; in the
neutral branch it equals `0.5` plus a jitter of at most `0.1`; the error
branch of `analyze` scores exactly `0.5`.  Polarity is carried only by the
`sentiment` field: the score is non-negative in every branch. -/
def ScoreBounds (cfg : ModelConfig) (text : String) (j : ℚ) : Prop :=
  (0 ≤ (analyzeRuleBased cfg text j).score ∧ (analyzeRuleBased cfg text j).score ≤ 1) ∧
  ((analyzeRuleBased cfg text j).sentiment = .positive →
    (analyzeRuleBased cfg text j).score =
      min (7/10 + (1/10) * ((positiveCount cfg text : ℚ) - (negativeCount cfg text : ℚ)))
        (95/100) + j * (5/100) ∧
    0 ≤ j * (5/100) ∧ j * (5/100) ≤ 5/100) ∧
  ((analyzeRuleBased cfg text j).sentiment = .negative →
    (analyzeRuleBased cfg text j).score =
      min (7/10 + (1/10) * ((negativeCount cfg text : ℚ) - (positiveCount cfg text : ℚ)))
        (95/100) + j * (5/100) ∧
    0 ≤ j * (5/100) ∧ j * (5/100) ≤ 5/100) ∧
  ((analyzeRuleBased cfg text j).sentiment = .neutral →
    (analyzeRuleBased cfg text j).score = 1/2 + j * (1/10) ∧
    0 ≤ j * (1/10) ∧ j * (1/10) ≤ 1/10) ∧
  (∀ st e, (analyze st text j (some e)).1.score = 1/2)

/-- Claim C8: for every text and every jitter draw `j ∈ [0,1)`, the score
of the rule-based analysis lies in `[0,1]` and follows the branch formulas
of `_analyze_rule_based`, and the error fallback scores `0.5`. -/
theorem analyzeRuleBased_score_in_unit (cfg : ModelConfig) (text : String)
    (j : ℚ) (h0 : 0 ≤ j) (h1 : j < 1) : ScoreBounds cfg text j := by
  have hj5 : j * (5/100) ≤ 5/100 := by nlinarith
  have hj5' : 0 ≤ j * (5/100) := by positivity
  have hj10 : j * (1/10) ≤ 1/10 := by nlinarith
  have hj10' : 0 ≤ j * (1/10) := by positivity
  unfold ScoreBounds
  rcases Nat.lt_trichotomy (negativeCount cfg text) (positiveCount cfg text) with hpn | hpn | hpn
  · have hd : (1 : ℚ) ≤ (positiveCount cfg text : ℚ) - (negativeCount cfg text : ℚ) := by
      have : (negativeCount cfg text : ℚ) + 1 ≤ (positiveCount cfg text : ℚ) := by
        exact_mod_cast hpn
      linarith
    have hmin_lo : (8/10 : ℚ) ≤
        min (7/10 + (1/10) * ((positiveCount cfg text : ℚ) - (negativeCount cfg text : ℚ)))
          (95/100) :=
      le_min (by linarith) (by norm_num)
    have hmin_hi :
        min (7/10 + (1/10) * ((positiveCount cfg text : ℚ) - (negativeCount cfg text : ℚ)))
          (95/100) ≤ 95/100 := min_le_right _ _
    rw [analyzeRuleBased_pos cfg text j hpn]
    exact ⟨⟨by linarith, by linarith⟩, fun _ => ⟨rfl, hj5', hj5⟩,
      fun h => by simp at h, fun h => by simp at h, fun st e => rfl⟩
  · rw [analyzeRuleBased_neu cfg text j hpn]
    exact ⟨⟨by linarith, by linarith⟩, fun h => by simp at h,
      fun h => by simp at h, fun _ => ⟨rfl, hj10', hj10⟩, fun st e => rfl⟩
  · have hd : (1 : ℚ) ≤ (negativeCount cfg text : ℚ) - (positiveCount cfg text : ℚ) := by
      have : (positiveCount cfg text : ℚ) + 1 ≤ (negativeCount cfg text : ℚ) := by
        exact_mod_cast hpn
      linarith
    have hmin_lo : (8/10 : ℚ) ≤
        min (7/10 + (1/10) * ((negativeCount cfg text : ℚ) - (positiveCount cfg text : ℚ)))
          (95/100) :=
      le_min (by linarith) (by norm_num)
    have hmin_hi :
        min (7/10 + (1/10) * ((negativeCount cfg text : ℚ) - (positiveCount cfg text : ℚ)))
          (95/100) ≤ 95/100 := min_le_right _ _
    rw [analyzeRuleBased_neg cfg text j hpn]
    exact ⟨⟨by linarith, by linarith⟩, fun h => by simp at h,
      fun _ => ⟨rfl, hj5', hj5⟩, fun h => by simp at h, fun st e => rfl⟩

theorem analyzeRuleBased_score_in_unit_witness :
    (0 : ℚ) ≤ 0 ∧ (0 : ℚ) < 1 ∧ ScoreBounds default_model_config "x" 0 :=
  ⟨le_refl 0, by norm_num,
    analyzeRuleBased_score_in_unit default_model_config "x" 0 (le_refl 0) (by norm_num)⟩

/-! ## Claim C9 : page failures keep previously collected pages -/

/-- The paging loop runs through this whole list of responses without
stopping: before each page the target is not yet reached, the page comes
back 200, fills the page size, and leaves `totalResults` unreached. -/
def loopReaches (pageSize maxResults : Int) : List PageResponse → List Article → Bool
  | [], _ => true
  | r :: rest, acc =>
    decide ((acc.length : Int) < maxResults) && decide (r.status = 200) &&
    decide (pageSize ≤ (r.articles.length : Int)) &&
    decide (((acc ++ r.articles).length : Int) < r.totalResults) &&
    loopReaches pageSize maxResults rest (acc ++ r.articles)

theorem pageLoop_append (pageSize maxResults : Int) (good : List PageResponse) :
    ∀ (acc : List Article) (rest : List PageResponse),
      loopReaches pageSize maxResults good acc = true →
      pageLoop pageSize maxResults (good ++ rest) acc =
        pageLoop pageSize maxResults rest (acc ++ good.flatMap (fun r => r.articles)) := by
  induction good with
  | nil => intro acc rest _; simp
  | cons r good' ih =>
      intro acc rest h
      simp only [loopReaches, Bool.and_eq_true, decide_eq_true_eq] at h
      obtain ⟨⟨⟨⟨hlt, h200⟩, hfull⟩, htot⟩, hrest⟩ := h
      have h429 : r.status ≠ 429 := by rw [h200]; norm_num
      have h200' : ¬ (r.status ≠ 200) := by simp [h200]
      show pageLoop pageSize maxResults (r :: (good' ++ rest)) acc = _
      rw [show pageLoop pageSize maxResults (r :: (good' ++ rest)) acc =
          pageLoop pageSize maxResults (good' ++ rest) (acc ++ r.articles) by
        simp only [pageLoop, if_pos hlt, if_neg h429, if_neg h200',
          if_neg (not_lt.mpr hfull), if_neg (not_le.mpr htot)]]
      rw [ih (acc ++ r.articles) rest hrest]
      simp [List.flatMap_cons, List.append_assoc]

theorem pageLoop_stop (pageSize maxResults : Int) (bad : PageResponse)
    (rest : List PageResponse) (acc : List Article) (hbad : bad.status ≠ 200) :
    pageLoop pageSize maxResults (bad :: rest) acc = some acc := by
  by_cases hlt : (acc.length : Int) < maxResults
  · by_cases h429 : bad.status = 429
    · simp only [pageLoop, if_pos hlt, if_pos h429]
    · simp only [pageLoop, if_pos hlt, if_neg h429, if_pos hbad]
  · simp only [pageLoop, if_neg hlt]

/-- Claim C9: if paging reaches a page whose request fails — a 429
rate-limit status or any other non-200 status — paging stops there and
`get_news_from_api` returns exactly the items built from the articles of
all pages collected before the failure; nothing already collected is
discarded, and the responses after the failed page are never consulted. -/
theorem get_news_from_api_keeps_pages_on_failure (ticker : String)
    (maxResults : Int) (good : List PageResponse) (bad : PageResponse)
    (rest : List PageResponse)
    (hreach : loopReaches (min 100 maxResults) maxResults good [] = true)
    (hbad : bad.status ≠ 200) :
    get_news_from_api ticker maxResults (good ++ bad :: rest) =
      formatArticles ticker []
        (pySlice (good.flatMap (fun r => r.articles)) maxResults) := by
  unfold get_news_from_api
  rw [pageLoop_append (min 100 maxResults) maxResults good [] (bad :: rest) hreach,
    List.nil_append, pageLoop_stop _ _ _ _ _ hbad]

theorem get_news_from_api_keeps_pages_on_failure_witness :
    loopReaches (min 100 5) 5 [] [] = true ∧
    ({ status := 429, articles := [], totalResults := 0 } : PageResponse).status ≠ 200 ∧
    get_news_from_api "A" 5
        ([] ++ ({ status := 429, articles := [], totalResults := 0 } : PageResponse) :: []) =
      formatArticles "A" []
        (pySlice (([] : List PageResponse).flatMap (fun r => r.articles)) 5) :=
  ⟨rfl, by decide,
    get_news_from_api_keeps_pages_on_failure "A" 5 []
      { status := 429, articles := [], totalResults := 0 } [] rfl (by decide)⟩

/-! ## Merge/dedup lemmas -/

theorem mergeNew_subset (l : List Item) :
    ∀ (s : List String) (x : Item), x ∈ mergeNew s l → x ∈ l := by
  induction l with
  | nil => intro s x h; simp [mergeNew] at h
  | cons i rest ih =>
      intro s x h
      by_cases hc : normTitle i.title ≠ "" ∧ normTitle i.title ∉ s
      · rw [mergeNew, if_pos hc] at h
        rcases List.mem_cons.mp h with h | h
        · exact h ▸ List.mem_cons_self i rest
        · exact List.mem_cons_of_mem i (ih _ x h)
      · rw [mergeNew, if_neg hc] at h
        exact List.mem_cons_of_mem i (ih s x h)

theorem mergeNew_not_seen (l : List Item) :
    ∀ (s : List String) (x : Item), x ∈ mergeNew s l →
      normTitle x.title ∉ s ∧ normTitle x.title ≠ "" := by
  induction l with
  | nil => intro s x h; simp [mergeNew] at h
  | cons i rest ih =>
      intro s x h
      by_cases hc : normTitle i.title ≠ "" ∧ normTitle i.title ∉ s
      · rw [mergeNew, if_pos hc] at h
        rcases List.mem_cons.mp h with h | h
        · exact h ▸ ⟨hc.2, hc.1⟩
        · have := ih _ x h
          exact ⟨fun hx => this.1 (List.mem_cons_of_mem _ hx), this.2⟩
      · rw [mergeNew, if_neg hc] at h
        exact ih s x h

theorem mergeNew_pairwise (l : List Item) :
    ∀ (s : List String),
      (mergeNew s l).Pairwise (fun a b => normTitle a.title ≠ normTitle b.title) := by
  induction l with
  | nil => intro s; simp [mergeNew]
  | cons i rest ih =>
      intro s
      by_cases hc : normTitle i.title ≠ "" ∧ normTitle i.title ∉ s
      · rw [mergeNew, if_pos hc]
        refine List.Pairwise.cons (fun y hy he => ?_) (ih _)
        exact (mergeNew_not_seen rest _ y hy).1 (he ▸ List.mem_cons_self _ _)
      · rw [mergeNew, if_neg hc]
        exact ih s

theorem mergeNew_mem_title (l : List Item) :
    ∀ (s : List String) (t : String), t ≠ "" →
      ((∃ x ∈ mergeNew s l, normTitle x.title = t) ↔
        t ∉ s ∧ ∃ x ∈ l, normTitle x.title = t) := by
  induction l with
  | nil => intro s t ht; simp [mergeNew]
  | cons i rest ih =>
      intro s t ht
      by_cases hc : normTitle i.title ≠ "" ∧ normTitle i.title ∉ s
      · rw [mergeNew, if_pos hc]
        by_cases hti : normTitle i.title = t
        · constructor
          · intro _
            exact ⟨hti ▸ hc.2, i, List.mem_cons_self i rest, hti⟩
          · intro _
            exact ⟨i, List.mem_cons_self _ _, hti⟩
        · constructor
          · intro ⟨x, hx, hxt⟩
            rcases List.mem_cons.mp hx with h | h
            · exact absurd (h ▸ hxt) hti
            · have := (ih _ t ht).mp ⟨x, h, hxt⟩
              refine ⟨fun hs => this.1 (List.mem_cons_of_mem _ hs), ?_⟩
              obtain ⟨y, hy, hyt⟩ := this.2
              exact ⟨y, List.mem_cons_of_mem i hy, hyt⟩
          · intro ⟨hts, x, hx, hxt⟩
            rcases List.mem_cons.mp hx with h | h
            · exact absurd (h ▸ hxt) hti
            · have hmem : t ∉ normTitle i.title :: s := by
                simp only [List.mem_cons, not_or]
                exact ⟨fun he => hti he.symm, hts⟩
              have := (ih (normTitle i.title :: s) t ht).mpr ⟨hmem, x, h, hxt⟩
              obtain ⟨y, hy, hyt⟩ := this
              exact ⟨y, List.mem_cons_of_mem i hy, hyt⟩
      · rw [mergeNew, if_neg hc]
        rcases Decidable.not_and_iff_or_not.mp hc with hc' | hc'
        · have hie : normTitle i.title = "" := Decidable.not_not.mp hc'
          rw [ih s t ht]
          constructor
          · intro ⟨hts, h⟩
            refine ⟨hts, ?_⟩
            obtain ⟨y, hy, hyt⟩ := h
            exact ⟨y, List.mem_cons_of_mem i hy, hyt⟩
          · intro ⟨hts, x, hx, hxt⟩
            rcases List.mem_cons.mp hx with h | h
            · rw [h] at hxt
              rw [hie] at hxt
              exact absurd hxt.symm ht
            · exact ⟨hts, x, h, hxt⟩
        · have his : normTitle i.title ∈ s := Decidable.not_not.mp hc'
          rw [ih s t ht]
          constructor
          · intro ⟨hts, h⟩
            refine ⟨hts, ?_⟩
            obtain ⟨y, hy, hyt⟩ := h
            exact ⟨y, List.mem_cons_of_mem i hy, hyt⟩
          · intro ⟨hts, x, hx, hxt⟩
            rcases List.mem_cons.mp hx with h | h
            · exact absurd (hxt ▸ h ▸ his) hts
            · exact ⟨hts, x, h, hxt⟩

theorem mergeDedup_subset (base extra : List Item) (x : Item)
    (h : x ∈ mergeDedup base extra) : x ∈ base ∨ x ∈ extra := by
  rcases List.mem_append.mp h with h | h
  · exact Or.inl h
  · exact Or.inr (mergeNew_subset extra _ x h)

theorem mergeDedup_pairwise (base extra : List Item)
    (hb : base.Pairwise (fun a b => normTitle a.title ≠ normTitle b.title)) :
    (mergeDedup base extra).Pairwise (fun a b => normTitle a.title ≠ normTitle b.title) := by
  refine List.pairwise_append.mpr ⟨hb, mergeNew_pairwise extra _, fun a ha b hb' he => ?_⟩
  have hnotin := (mergeNew_not_seen extra _ b hb').1
  exact hnotin (he ▸ List.mem_map_of_mem (fun i => normTitle i.title) ha)

theorem mergeDedup_mem_title (base extra : List Item) (t : String) (ht : t ≠ "") :
    ((∃ x ∈ mergeDedup base extra, normTitle x.title = t) ↔
      (∃ x ∈ base, normTitle x.title = t) ∨ (∃ x ∈ extra, normTitle x.title = t)) := by
  have hbase : t ∈ existingTitles base ↔ ∃ x ∈ base, normTitle x.title = t := by
    simp [existingTitles, List.mem_map, eq_comm]
  constructor
  · intro ⟨x, hx, hxt⟩
    rcases List.mem_append.mp hx with h | h
    · exact Or.inl ⟨x, h, hxt⟩
    · exact Or.inr ((mergeNew_mem_title extra _ t ht).mp ⟨x, h, hxt⟩).2
  · intro h
    by_cases hb : ∃ x ∈ base, normTitle x.title = t
    · obtain ⟨x, hx, hxt⟩ := hb
      exact ⟨x, List.mem_append.mpr (Or.inl hx), hxt⟩
    · rcases h with h | h
      · exact absurd h hb
      · have := (mergeNew_mem_title extra (existingTitles base) t ht).mpr
          ⟨fun hs => hb (hbase.mp hs), h⟩
        obtain ⟨x, hx, hxt⟩ := this
        exact ⟨x, List.mem_append.mpr (Or.inr hx), hxt⟩

/-! ## Formatting and scoring loop lemmas -/

theorem formatArticles_not_seen (ticker : String) (l : List Article) :
    ∀ (s : List String) (x : Item), x ∈ formatArticles ticker s l →
      normTitle x.title ∉ s := by
  induction l with
  | nil => intro s x h; simp [formatArticles] at h
  | cons a rest ih =>
      intro s x h
      by_cases he : a.title = ""
      · rw [formatArticles, if_pos he] at h
        exact ih s x h
      · by_cases hs : normTitle a.title ∈ s
        · rw [formatArticles, if_neg he, if_pos hs] at h
          exact ih s x h
        · rcases hd : a.dateFmt with _ | d
          · rw [formatArticles, if_neg he, if_neg hs, hd] at h
            intro hxs
            exact ih _ x h (List.mem_cons_of_mem _ hxs)
          · rw [formatArticles, if_neg he, if_neg hs, hd] at h
            rcases List.mem_cons.mp h with h' | h'
            · rw [h']
              exact hs
            · intro hxs
              exact ih _ x h' (List.mem_cons_of_mem _ hxs)

theorem formatArticles_pairwise (ticker : String) (l : List Article) :
    ∀ (s : List String),
      (formatArticles ticker s l).Pairwise
        (fun a b => normTitle a.title ≠ normTitle b.title) := by
  induction l with
  | nil => intro s; simp [formatArticles]
  | cons a rest ih =>
      intro s
      by_cases he : a.title = ""
      · rw [formatArticles, if_pos he]
        exact ih s
      · by_cases hs : normTitle a.title ∈ s
        · rw [formatArticles, if_neg he, if_pos hs]
          exact ih s
        · rcases hd : a.dateFmt with _ | d
          · rw [formatArticles, if_neg he, if_neg hs, hd]
            exact ih _
          · rw [formatArticles, if_neg he, if_neg hs, hd]
            refine List.Pairwise.cons (fun y hy hne => ?_) (ih _)
            exact formatArticles_not_seen ticker rest _ y hy
              (hne ▸ List.mem_cons_self _ _)

theorem processItems_length (ticker : String) (env : Env) (l : List Item) :
    ∀ st, ((processItems ticker env l st).1).length ≤ l.length := by
  induction l with
  | nil => intro st; simp [processItems]
  | cons i rest ih =>
      intro st
      by_cases he : i.title = ""
      · rw [processItems, if_pos he]
        exact Nat.le_succ_of_le (ih st)
      · rw [processItems, if_neg he]
        simpa using Nat.succ_le_succ (ih _)

theorem processItems_mem (ticker : String) (env : Env) (l : List Item) :
    ∀ st y, y ∈ (processItems ticker env l st).1 →
      y.ticker = ticker ∧ y.title ≠ "" ∧ ∃ i ∈ l, y.title = i.title := by
  induction l with
  | nil => intro st y h; simp [processItems] at h
  | cons i rest ih =>
      intro st y h
      by_cases he : i.title = ""
      · rw [processItems, if_pos he] at h
        obtain ⟨h1, h2, x, hx, hxt⟩ := ih st y h
        exact ⟨h1, h2, x, List.mem_cons_of_mem i hx, hxt⟩
      · rw [processItems, if_neg he] at h
        rcases List.mem_cons.mp h with h' | h'
        · rw [h']
          exact ⟨rfl, he, i, List.mem_cons_self i rest, rfl⟩
        · obtain ⟨h1, h2, x, hx, hxt⟩ := ih _ y h'
          exact ⟨h1, h2, x, List.mem_cons_of_mem i hx, hxt⟩

theorem processItems_pairwise (ticker : String) (env : Env) (l : List Item) :
    ∀ st, l.Pairwise (fun a b => normTitle a.title ≠ normTitle b.title) →
      ((processItems ticker env l st).1).Pairwise
        (fun a b => normTitle a.title ≠ normTitle b.title) := by
  induction l with
  | nil => intro st _; simp [processItems]
  | cons i rest ih =>
      intro st hp
      have hp' := List.pairwise_cons.mp hp
      by_cases he : i.title = ""
      · rw [processItems, if_pos he]
        exact ih st hp'.2
      · rw [processItems, if_neg he]
        refine List.Pairwise.cons (fun y hy => ?_) (ih _ hp'.2)
        obtain ⟨_, _, x, hx, hxt⟩ := processItems_mem ticker env rest _ y hy
        show normTitle i.title ≠ normTitle y.title
        rw [hxt]
        exact hp'.1 x hx

/-! ## Slicing and stage lemmas -/

theorem pySlice_sublist {α : Type} (l : List α) (k : Int) : (pySlice l k).Sublist l := by
  unfold pySlice
  split
  · exact List.take_sublist _ _
  · exact List.take_sublist _ _

theorem pySlice_length_le {α : Type} (l : List α) (k : Int) (hk : 0 ≤ k) :
    ((pySlice l k).length : Int) ≤ k := by
  unfold pySlice
  rw [if_pos hk, List.length_take]
  calc ((min k.toNat l.length : Nat) : Int) ≤ (k.toNat : Int) := by
        exact_mod_cast Nat.min_le_left _ _
    _ = k := Int.toNat_of_nonneg hk

theorem get_news_from_api_pairwise (ticker : String) (maxResults : Int)
    (pages : List PageResponse) :
    (get_news_from_api ticker maxResults pages).Pairwise
      (fun a b => normTitle a.title ≠ normTitle b.title) := by
  unfold get_news_from_api
  rcases pageLoop (min 100 maxResults) maxResults pages [] with _ | arts
  · simp
  · exact formatArticles_pairwise ticker _ []

theorem primaryItems_pairwise (ticker : String) (maxResults : Int) (env : Env) :
    (primaryItems ticker maxResults env).Pairwise
      (fun a b => normTitle a.title ≠ normTitle b.title) := by
  unfold primaryItems
  split
  · exact get_news_from_api_pairwise ticker maxResults env.pages
  · simp

theorem newsAfterExcel_pairwise (ticker : String) (days maxResults : Int) (env : Env) :
    (newsAfterExcel ticker days maxResults env).Pairwise
      (fun a b => normTitle a.title ≠ normTitle b.title) := by
  simp only [newsAfterExcel]
  split
  · exact mergeDedup_pairwise _ _ (primaryItems_pairwise ticker maxResults env)
  · exact primaryItems_pairwise ticker maxResults env

theorem newsAfterDemo_pairwise (ticker : String) (days maxResults : Int) (env : Env) :
    (newsAfterDemo ticker days maxResults env).Pairwise
      (fun a b => normTitle a.title ≠ normTitle b.title) := by
  simp only [newsAfterDemo]
  split
  · exact mergeDedup_pairwise _ _ (newsAfterExcel_pairwise ticker days maxResults env)
  · exact newsAfterExcel_pairwise ticker days maxResults env

/-! ## Claim C1 : result size never exceeds max_results -/

/-- Claim C1: for every ticker, every `days` and every `max_results ≥ 1`,
the scored list returned by the aggregation pipeline has at most
`max_results` elements. -/
theorem get_financial_news_le_max_results (ticker : String) (days maxResults : Int)
    (env : Env) (exn : Option String) (h : 1 ≤ maxResults) :
    ((get_financial_news ticker days maxResults env exn).length : Int) ≤ maxResults := by
  rcases exn with _ | e
  · show ((get_financial_news_core ticker days maxResults env).length : Int) ≤ maxResults
    simp only [get_financial_news_core]
    have hm0 : (0 : Int) ≤ maxResults := le_trans (by norm_num) h
    have hproc : ∀ (l : List Item),
        (((processItems ticker env l env.st0).1).length : Int) ≤ (l.length : Int) := by
      intro l
      exact_mod_cast processItems_length ticker env l env.st0
    split
    · exact le_trans (hproc _) (pySlice_length_le _ maxResults hm0)
    · next hlen => exact le_trans (hproc _) (not_lt.mp hlen)
  · show ((([] : List NewsItem)).length : Int) ≤ maxResults
    simpa using le_trans (by norm_num) h

/-- A concrete environment for witnesses: a valid API key and one fully
successful page with five distinct one-letter titles. -/
def env5 : Env where
  now := 1000000000
  fmt := fun _ => ""
  apiValid := true
  pages :=
    [{ status := 200,
       articles :=
         [{ title := "a", sourceName := "s", url := "u", dateFmt := some "d" },
          { title := "b", sourceName := "s", url := "u", dateFmt := some "d" },
          { title := "c", sourceName := "s", url := "u", dateFmt := some "d" },
          { title := "d", sourceName := "s", url := "u", dateFmt := some "d" },
          { title := "e", sourceName := "s", url := "u", dateFmt := some "d" }],
       totalResults := 5 }]
  excelOk := false
  excelRows := []
  jit := fun _ => 0
  scoreFail := fun _ => none
  st0 := { max_length := 512, config := default_model_config,
           request_count := 0, error_count := 0 }

theorem get_financial_news_le_max_results_witness :
    (1 : Int) ≤ 1 ∧ ((get_financial_news "A" 7 1 env5 none).length : Int) ≤ 1 :=
  ⟨by norm_num, get_financial_news_le_max_results "A" 7 1 env5 none (by norm_num)⟩

/-! ## Claim C2 : no two results share a normalized title -/

/-- Claim C2: for every ticker, days and max_results, and every behavior of
the three sources, no two items in the pipeline's result share a
normalized (stripped, lower-cased) title. -/
theorem get_financial_news_no_duplicate_titles (ticker : String)
    (days maxResults : Int) (env : Env) (exn : Option String) :
    (get_financial_news ticker days maxResults env exn).Pairwise
      (fun a b => normTitle a.title ≠ normTitle b.title) := by
  rcases exn with _ | e
  · show ((processItems ticker env _ env.st0).1).Pairwise _
    refine processItems_pairwise ticker env _ env.st0 ?_
    have hnd := newsAfterDemo_pairwise ticker (max 1 days) maxResults env
    split
    · exact List.Pairwise.sublist (pySlice_sublist _ _) hnd
    · exact hnd
  · show (([] : List NewsItem)).Pairwise _
    simp

/-! ## Claim C10 : shape of every returned record -/

/-- Claim C10: every record returned by the pipeline consists of exactly
the seven fields of `NewsItem` (title, publisher, link, published_date,
ticker, sentiment, score — the structure has no others, whatever extra
columns the source rows carried); its `ticker` equals the requested
ticker and its title is non-empty. -/
theorem get_financial_news_item_shape (ticker : String) (days maxResults : Int)
    (env : Env) (exn : Option String) :
    ∀ x ∈ get_financial_news ticker days maxResults env exn,
      x.ticker = ticker ∧ x.title ≠ "" := by
  intro x hx
  rcases exn with _ | e
  · obtain ⟨h1, h2, _⟩ := processItems_mem ticker env _ env.st0 x hx
    exact ⟨h1, h2⟩
  · simp [get_financial_news] at hx

theorem get_financial_news_item_shape_witness :
    (get_financial_news "A" 7 5 env5 none).get ⟨0, by decide⟩ ∈
        get_financial_news "A" 7 5 env5 none ∧
    ((get_financial_news "A" 7 5 env5 none).get ⟨0, by decide⟩).ticker = "A" ∧
    ((get_financial_news "A" 7 5 env5 none).get ⟨0, by decide⟩).title ≠ "" :=
  ⟨List.get_mem _ _ _,
    get_financial_news_item_shape "A" 7 5 env5 none _ (List.get_mem _ _ _)⟩

/-! ## Claim C7 : the Excel supplement policy -/

/-- An environment falsifying claim C7 as stated: no primary source, and
one Excel row whose title is a single space.  Its normalized title (the
empty string) is not among the primary titles, yet the merge refuses it. -/
def envC7 : Env where
  now := 1000000000
  fmt := fun _ => ""
  apiValid := false
  pages := []
  excelOk := true
  excelRows :=
    [{ ticker := "X", title := " ", publisher := "p", link := "l",
       published_date := "2020-01-01", date := 1000000000 }]
  jit := fun _ => 0
  scoreFail := fun _ => none
  st0 := { max_length := 512, config := default_model_config,
           request_count := 0, error_count := 0 }

/-- The Excel-sourced item of `envC7` as it appears after
`get_news_from_excel`. -/
def itemC7 : Item :=
  { title := " ", publisher := "p", link := "l",
    published_date := "2020-01-01", ticker := "X" }

/-- Claim C7 as stated is false: with `days = 40 > 30` the supplement
fires and `itemC7` is a fetched secondary item whose normalized title is
not already present among the primary items (there are none), yet it is
not merged in, because the merge also requires a non-empty normalized
title (`if title and title not in existing_titles`). -/
theorem newsAfterExcel_drops_whitespace_titles :
    excelCond 40 (primaryItems "X" 10 envC7).length 10 = true ∧
    itemC7 ∈ get_news_from_excel "X" 40 envC7.now envC7.excelOk envC7.excelRows ∧
    normTitle itemC7.title ∉ existingTitles (primaryItems "X" 10 envC7) ∧
    itemC7 ∉ newsAfterExcel "X" 40 10 envC7 := by
  refine ⟨by decide, by decide, by decide, by decide⟩

/-- Claim C7, amended: for `days ≥ 1` and `max_results ≥ 1`, the pipeline
merges data from the secondary static-dataset source exactly when
`days > 30` or the primary yield is under `min(30, max_results // 2)`
(floor division, as in the source); when it does not fire, the item list
is exactly the primary list, and when it fires, every resulting item comes
from the primary or secondary source and a *non-empty* normalized title
occurs in the merged list precisely when it occurs among the primary items
or among the fetched secondary items (first-seen-wins; secondary items
whose normalized title is empty or already present are not merged). -/
theorem newsAfterExcel_supplement (ticker : String) (days maxResults : Int)
    (env : Env) (hd : 1 ≤ days) (hm : 1 ≤ maxResults) :
    (excelCond days (primaryItems ticker maxResults env).length maxResults = false →
      newsAfterExcel ticker days maxResults env = primaryItems ticker maxResults env) ∧
    (excelCond days (primaryItems ticker maxResults env).length maxResults = true →
      (∀ x ∈ newsAfterExcel ticker days maxResults env,
        x ∈ primaryItems ticker maxResults env ∨
        x ∈ get_news_from_excel ticker days env.now env.excelOk env.excelRows) ∧
      (∀ t, t ≠ "" →
        ((∃ x ∈ newsAfterExcel ticker days maxResults env, normTitle x.title = t) ↔
          (∃ x ∈ primaryItems ticker maxResults env, normTitle x.title = t) ∨
          (∃ x ∈ get_news_from_excel ticker days env.now env.excelOk env.excelRows,
            normTitle x.title = t)))) := by
  constructor
  · intro hc
    simp only [newsAfterExcel, hc]
    simp
  · intro hc
    constructor
    · intro x hx
      rw [newsAfterExcel] at hx
      simp only [hc, if_true] at hx
      exact mergeDedup_subset _ _ x hx
    · intro t ht
      rw [newsAfterExcel]
      simp only [hc, if_true]
      exact mergeDedup_mem_title _ _ t ht

/-- A concrete environment for the C7 witness: supplement fires
(`days = 40 > 30`) and the Excel file has one matching row titled `a`. -/
def envW7 : Env where
  now := 1000000000
  fmt := fun _ => ""
  apiValid := false
  pages := []
  excelOk := true
  excelRows :=
    [{ ticker := "X", title := "a", publisher := "p", link := "l",
       published_date := "2020-01-01", date := 1000000000 }]
  jit := fun _ => 0
  scoreFail := fun _ => none
  st0 := { max_length := 512, config := default_model_config,
           request_count := 0, error_count := 0 }

theorem newsAfterExcel_supplement_witness :
    (1 : Int) ≤ 40 ∧ (1 : Int) ≤ 10 ∧
    excelCond 40 (primaryItems "X" 10 envW7).length 10 = true ∧ ("a" : String) ≠ "" ∧
    ((∃ x ∈ newsAfterExcel "X" 40 10 envW7, normTitle x.title = "a") ↔
      (∃ x ∈ primaryItems "X" 10 envW7, normTitle x.title = "a") ∨
      (∃ x ∈ get_news_from_excel "X" 40 envW7.now envW7.excelOk envW7.excelRows,
        normTitle x.title = "a")) :=
  ⟨by norm_num, by norm_num, by decide, by decide,
    ((newsAfterExcel_supplement "X" 40 10 envW7 (by norm_num) (by norm_num)).2
      (by decide)).2 "a" (by decide)⟩

/-! ## Concrete instances of the universally quantified claims -/

theorem get_financial_news_no_duplicate_titles_witness :
    (get_financial_news "A" 7 5 env5 none).Pairwise
      (fun a b => normTitle a.title ≠ normTitle b.title) :=
  get_financial_news_no_duplicate_titles "A" 7 5 env5 none

theorem get_financial_news_never_raises_witness :
    get_financial_news "A" 7 5 env5 (some "boom") = [] ∧
    get_financial_news "A" 7 5 env5 none = get_financial_news_core "A" 7 5 env5 :=
  get_financial_news_never_raises "A" 7 5 env5 "boom"

theorem keywordCount_counts_keywords_once_witness :
    positiveCount default_model_config "surge surge" =
      (default_model_config.positive_keywords).countP
        (fun w => decide (0 < occCount (pyLower w) (pyLower "surge surge"))) ∧
    negativeCount default_model_config "surge surge" =
      (default_model_config.negative_keywords).countP
        (fun w => decide (0 < occCount (pyLower w) (pyLower "surge surge"))) :=
  keywordCount_counts_keywords_once default_model_config "surge surge"
